import Mathlib

/-!
Verification of the origin random test-value generation subsystem
(src/core/include/origin/random.hpp) against its specification.

The embedding models a random number engine as an infinite stream of raw
unsigned words together with a cursor: one raw draw reads the word at the
cursor and advances it.  Distributions from the C++ standard library
(`std::uniform_int_distribution`, `std::uniform_real_distribution`) are
external collaborators; they are modelled by their standard contract:
a default-constructed `std::uniform_int_distribution<T>` has parameters
`(0, numeric_limits<T>::max())` and each invocation consumes one engine
word and yields a value in `[a, b]`; a default-constructed
`std::uniform_real_distribution<T>` has parameters `(0.0, 1.0)`.
The repository's own distributions are translated from the source.
-/

namespace Origin

/-- A random number engine: an infinite stream of raw words plus the cursor
of the next unread word.  Invoking the engine reads `stream pos` and
advances `pos`. -/
structure Engine where
  stream : Nat → Nat
  pos : Nat

/-- Model of `std::uniform_int_distribution` (an external collaborator of
random.hpp): the two inclusive bounds `a ≤ b` it was constructed with. -/
structure uniform_int_distribution where
  a : Int
  b : Int
deriving DecidableEq

/-- The value the uniform distribution derives from one raw engine word:
a representative of the standard's contract, mapping the word into
`[a, b]` (when `a ≤ b`) by remainder. -/
def uniform_int_distribution.val (d : uniform_int_distribution) (r : Nat) : Int :=
  d.a + ((r % (d.b - d.a + 1).toNat : Nat) : Int)

/-- One invocation `d(eng)`: consumes exactly one engine word. -/
def uniform_int_distribution.draw (d : uniform_int_distribution) (e : Engine) :
    Int × Engine :=
  (d.val (e.stream e.pos), ⟨e.stream, e.pos + 1⟩)

/-- `n` successive invocations, first value first. -/
def uniform_int_distribution.drawN (d : uniform_int_distribution) :
    Nat → Engine → List Int × Engine
  | 0, e => ([], e)
  | n + 1, e =>
    let p := d.draw e
    let q := d.drawN n p.2
    (p.1 :: q.1, q.2)

/-- `operator==` of `std::uniform_int_distribution`: parameter equality. -/
def uniform_int_distribution.beq (x y : uniform_int_distribution) : Bool :=
  x.a == y.a && x.b == y.b

/-- Descriptor of a C++ type as the default-distribution registry sees it.
`integral` and `floating` carry the numeric limits of the concrete type
(`min`/`max`, resp. `lowest`/`max`); `string` stands for
`std::basic_string` (whose value type is `char`, an 8-bit signed integral
type); `tup` for `std::tuple`; `seq` for any other Sequence container. -/
inductive Ty where
  | bool : Ty
  | integral (min max : Int) : Ty
  | floating (lowest max : Int) : Ty
  | string : Ty
  | tup (comps : List Ty) : Ty
  | seq (elem : Ty) : Ty

/-- Descriptor of the distribution value a registry lookup produces,
carrying its construction parameters: `uniformInt a b` is
`std::uniform_int_distribution` over `[a, b]`; `uniformReal a b` is
`std::uniform_real_distribution` over `[a, b)`; `stringDist la lb aa ab`
is `random_string_distribution` with length bounds `[la, lb]` and
character bounds `[aa, ab]`; `seqDist sa sb elem` is
`random_sequence_distribution` with size bounds `[sa, sb]` and element
distribution `elem`; `tupleGen` is `random_tuple_generator`. -/
inductive DistDesc where
  | bernoulli : DistDesc
  | uniformInt (a b : Int) : DistDesc
  | uniformReal (a b : Int) : DistDesc
  | stringDist (la lb aa ab : Int) : DistDesc
  | seqDist (sa sb : Int) (elem : DistDesc) : DistDesc
  | tupleGen (comps : List DistDesc) : DistDesc

mutual

/-- `default_distribution_traits<T>::get()` (random.hpp lines 570-609).
The three explicit specializations — bool (line 577), `basic_string`
(line 590), `tuple` (line 603) — intercept their exact types; every other
type falls to the primary template, which inlines
`traits::deduce_distribution` (lines 514-563): integral types get
`default_integral_distribution` (a default-constructed
`std::uniform_int_distribution`, i.e. bounds `[0, max]`), floating types
`default_floating_point_distribution` (default-constructed
`std::uniform_real_distribution`, i.e. `[0, 1)`), Sequence types
`default_sequence_distribution` (size `[0, 32]`, element distribution
resolved recursively).  `none` models the compile-time failure when no
rule matches.  (`deduce_distribution` below restates the primary
template's category dispatch; their agreement on non-specialized types is
proved in the registry-priority theorem.) -/
def default_distribution_traits : Ty → Option DistDesc
  | .bool => some .bernoulli
  | .string => some (.stringDist 0 32 33 126)
  | .tup comps => (defaultsList comps).map DistDesc.tupleGen
  | .integral _ mx => some (.uniformInt 0 mx)
  | .floating _ _ => some (.uniformReal 0 1)
  | .seq t => (default_distribution_traits t).map (fun d => DistDesc.seqDist 0 32 d)

/-- Componentwise registry lookup for a tuple's component types
(`Default_distribution_type<Args>...`, random.hpp line 606). -/
def defaultsList : List Ty → Option (List DistDesc)
  | [] => some []
  | t :: ts =>
    match default_distribution_traits t, defaultsList ts with
    | some d, some ds => some (d :: ds)
    | _, _ => none

end

/-- `Integral<T>()`: bool is an integral type in C++. -/
def isIntegral : Ty → Bool
  | .bool => true
  | .integral _ _ => true
  | _ => false

/-- `numeric_limits<T>::max()` of an integral type (bool's max is 1). -/
def intMaxOf : Ty → Option Int
  | .bool => some 1
  | .integral _ mx => some mx
  | _ => none

/-- `Floating_point<T>()`. -/
def isFloating : Ty → Bool
  | .floating _ _ => true
  | _ => false

/-- `Sequence<T>()`: `basic_string` satisfies the Sequence concept just as
any other sequence container does. -/
def isSequenceLike : Ty → Bool
  | .string => true
  | .seq _ => true
  | _ => false

/-- `Value_type<Seq>` of a sequence-like type; a string's value type is
`char`, whose numeric limits are `[-128, 127]`. -/
def elemType : Ty → Option Ty
  | .string => some (.integral (-128) 127)
  | .seq t => some t
  | _ => none

/-- `traits::deduce_distribution` (random.hpp lines 514-563), the primary
template's category dispatch, written as the priority chain it implements:
`arithmetic_distribution` first (integral before floating, lines 518-526),
then `udt_distribution` (Sequence types, lines 536-544), else a
compile-time failure. -/
def deduce_distribution (t : Ty) : Option DistDesc :=
  if isIntegral t then (intMaxOf t).map (fun mx => DistDesc.uniformInt 0 mx)
  else if isFloating t then some (.uniformReal 0 1)
  else if isSequenceLike t then
    (elemType t).bind (fun u =>
      (default_distribution_traits u).map (fun d => DistDesc.seqDist 0 32 d))
  else none

/-- An integral type's numeric limits. -/
structure integral_type where
  min : Int
  max : Int

/-- `default_integral_distribution<T>::get()` (random.hpp lines 479-485):
returns a default-constructed `std::uniform_int_distribution<T>`, whose
standard parameters are `(0, numeric_limits<T>::max())` — as the code's
own comment (lines 476-478) says, uniform over `[0, max]`. -/
def default_integral_distribution (t : integral_type) : uniform_int_distribution :=
  ⟨0, t.max⟩

/-- A floating-point type's numeric limits (`lowest`/`max`; both are
exactly representable integers for the IEEE types). -/
structure floating_type where
  lowest : Int
  max : Int

/-- Model of `std::uniform_real_distribution`: the two parameters it was
constructed with (generation covers `[a, b)`); both defaults are the
exactly representable 0 and 1. -/
structure uniform_real_distribution where
  a : Int
  b : Int
deriving DecidableEq

/-- `default_floating_point_distribution<T>::get()` (random.hpp lines
492-498): returns a default-constructed
`std::uniform_real_distribution<T>`, whose standard parameters are
`(0.0, 1.0)`. -/
def default_floating_point_distribution (_t : floating_type) :
    uniform_real_distribution :=
  ⟨0, 1⟩

/-- The `double` type: lowest = -(2^1024 - 2^971), max = 2^1024 - 2^971
(the exact value of DBL_MAX). -/
def double_type : floating_type :=
  ⟨-(2 ^ 1024 - 2 ^ 971), 2 ^ 1024 - 2 ^ 971⟩

/-- The width of the container size type `Size_type<Cont>` (`std::size_t`,
64 bits): its arithmetic wraps modulo `2^64`. -/
def size_t_modulus : Nat := 2 ^ 64

/-- The `random_iterator_distribution` constructor (random.hpp lines
387-389): `dist(0, c.size() - 1)` with no emptiness check; `c.size() - 1`
is computed in the unsigned size type, so for an empty container it wraps
to `2^64 - 1`.  The `Option` return models the spec's demand that
construction be able to fail; the code's constructor body never does. -/
def random_iterator_distribution_ctor (size : Nat) :
    Option uniform_int_distribution :=
  some ⟨0, (((size + (size_t_modulus - 1)) % size_t_modulus : Nat) : Int)⟩

/-- `random_sequence_distribution<Seq, Size, Gen>` (random.hpp lines
308-344): its two construction parameters, a size distribution and an
element distribution. -/
structure random_sequence_distribution (S G : Type) where
  size : S
  gen : G

/-- `random_sequence_distribution::operator()` (lines 322-329):
`Seq s(size(eng), Value_type<Seq>{})` draws the length, then
`generate(s, make_random(eng, gen))` fills each position in order, one
element draw per position.  Instantiated at integer-valued element
distributions. -/
def random_sequence_distribution.run
    (d : random_sequence_distribution uniform_int_distribution uniform_int_distribution)
    (e : Engine) : List Int × Engine :=
  let p := d.size.draw e
  d.gen.drawN p.1.toNat p.2

/-- `random_sequence_distribution::equal` (lines 336-339):
`size == x.size && gen == x.gen`, given the component equality
operators. -/
def random_sequence_distribution.equal {S G : Type}
    (sb : S → S → Bool) (gb : G → G → Bool)
    (x y : random_sequence_distribution S G) : Bool :=
  sb x.size y.size && gb x.gen y.gen

/-- `random_string_distribution` with its default constructor arguments
(random.hpp lines 365-368): `Len{0, 32}` and `Alpha{33, 126}`. -/
def random_string_distribution :
    random_sequence_distribution uniform_int_distribution uniform_int_distribution :=
  ⟨⟨0, 32⟩, ⟨33, 126⟩⟩

/-- `default_sequence_distribution<Seq>::get()` (random.hpp lines 506-510)
returns `random_sequence_distribution<Seq>{}`, i.e. the defaulted
constructor arguments `Size{0, 32}` and `Gen{}` (lines 317-320), where
`Gen` is `Default_distribution_type<Value_type<Seq>>` and `Gen{}` is the
value the element type's own registry entry returns.  `g` stands for that
default-constructed element distribution. -/
def default_sequence_distribution {G : Type} (g : G) :
    random_sequence_distribution uniform_int_distribution G :=
  ⟨⟨0, 32⟩, g⟩

/-- `random_tuple_generator<D1, D2>` (random.hpp lines 415-471): its
component distributions. -/
structure random_tuple_generator (D1 D2 : Type) where
  d1 : D1
  d2 : D2

/-- The arity-2 `generate` helper (lines 452-457):
`result_type { get<0>(dists)(eng), get<1>(dists)(eng) }` — a braced
initializer list, evaluated left to right: field 0 is drawn before
field 1. -/
def random_tuple_generator.run
    (g : random_tuple_generator uniform_int_distribution uniform_int_distribution)
    (e : Engine) : (Int × Int) × Engine :=
  let p1 := g.d1.draw e
  let p2 := g.d2.draw p1.2
  ((p1.1, p2.1), p2.2)

/-- `random_tuple_generator::operator==` (lines 434-435):
`dists == x.dists`, the componentwise `std::tuple` comparison, given the
component equality operators. -/
def random_tuple_generator.beq {D1 D2 : Type}
    (b1 : D1 → D1 → Bool) (b2 : D2 → D2 → Bool)
    (x y : random_tuple_generator D1 D2) : Bool :=
  b1 x.d1 y.d1 && b2 x.d2 y.d2

/-- `adapted_distribution<Dist, Result>` (random.hpp lines 263-287): its
one construction parameter, the wrapped inner distribution. -/
structure adapted_distribution (D : Type) where
  dist : D

/-- `adapted_distribution::operator==` (line 282): `dist == x.dist`. -/
def adapted_distribution.beq {D : Type} (db : D → D → Bool)
    (x y : adapted_distribution D) : Bool :=
  db x.dist y.dist

/-- `single_value_distribution<T>` (random.hpp lines 231-255): its fixed
value. -/
structure single_value_distribution (T : Type) where
  value : T

/-- `single_value_distribution::operator==` (line 250):
`value == x.value`. -/
def single_value_distribution.beq {T : Type} (vb : T → T → Bool)
    (x y : single_value_distribution T) : Bool :=
  vb x.value y.value

/-- `generate_random(first, last, eng, gen)` (random.hpp lines 104-111):
`while (first != last) { *first = gen(eng); ++first; }` — the destination
range modelled as the list of its current contents, the result as the
list of stored values. -/
def generate_random (dest : List Int) (e : Engine)
    (g : uniform_int_distribution) : List Int × Engine :=
  match dest with
  | [] => ([], e)
  | _ :: rest =>
    let p := g.draw e
    let q := generate_random rest p.2 g
    (p.1 :: q.1, q.2)

lemma uniform_int_distribution.beq_iff (x y : uniform_int_distribution) :
    x.beq y = true ↔ x = y := by
  cases x
  cases y
  simp [uniform_int_distribution.beq, uniform_int_distribution.mk.injEq]

lemma uniform_int_distribution.val_mem (d : uniform_int_distribution)
    (h : d.a ≤ d.b) (r : Nat) : d.a ≤ d.val r ∧ d.val r ≤ d.b := by
  unfold uniform_int_distribution.val
  have h1 : ((d.b - d.a + 1).toNat : Int) = d.b - d.a + 1 :=
    Int.toNat_of_nonneg (by omega)
  have h2 : 0 < (d.b - d.a + 1).toNat := by omega
  have h3 : r % (d.b - d.a + 1).toNat < (d.b - d.a + 1).toNat :=
    Nat.mod_lt _ h2
  have h4 : ((r % (d.b - d.a + 1).toNat : Nat) : Int) <
      ((d.b - d.a + 1).toNat : Int) := by exact_mod_cast h3
  have h5 : (0 : Int) ≤ ((r % (d.b - d.a + 1).toNat : Nat) : Int) :=
    Int.ofNat_nonneg _
  omega

lemma uniform_int_distribution.drawN_eq (d : uniform_int_distribution)
    (n : Nat) (e : Engine) :
    d.drawN n e =
      ((List.range n).map (fun i => d.val (e.stream (e.pos + i))),
       ⟨e.stream, e.pos + n⟩) := by
  induction n generalizing e with
  | zero => simp [uniform_int_distribution.drawN]
  | succ n ih =>
    rw [uniform_int_distribution.drawN]
    simp only [uniform_int_distribution.draw, ih, Prod.mk.injEq]
    have hidx : ∀ i : Nat, e.pos + 1 + i = e.pos + (i + 1) := by omega
    constructor
    · rw [List.range_succ_eq_map, List.map_cons, List.map_map]
      simp [hidx]
    · simp
      omega

lemma generate_random_eq_drawN (dest : List Int) (e : Engine)
    (g : uniform_int_distribution) :
    generate_random dest e g = g.drawN dest.length e := by
  induction dest generalizing e with
  | nil => rfl
  | cons x rest ih =>
    rw [generate_random]
    simp only [List.length_cons]
    rw [uniform_int_distribution.drawN]
    simp [ih]

/-- One invocation of a sequence distribution, in closed form: the length
draw consumes the word at the cursor, and the `n` element draws consume
the following `n` words, left to right. -/
lemma random_sequence_distribution.run_eq
    (sz g : uniform_int_distribution) (e : Engine) :
    random_sequence_distribution.run ⟨sz, g⟩ e
      = ((List.range (sz.val (e.stream e.pos)).toNat).map
           (fun i => g.val (e.stream (e.pos + 1 + i))),
         ⟨e.stream, e.pos + 1 + (sz.val (e.stream e.pos)).toNat⟩) := by
  unfold random_sequence_distribution.run uniform_int_distribution.draw
  rw [uniform_int_distribution.drawN_eq]

/-- A length drawn by the default size distribution `Size{0, 32}` never
exceeds 32. -/
lemma default_size_le (r : Nat) :
    ((⟨0, 32⟩ : uniform_int_distribution).val r).toNat ≤ 32 := by
  have h2 : (⟨0, 32⟩ : uniform_int_distribution).val r ≤ (32 : Int) :=
    (uniform_int_distribution.val_mem ⟨0, 32⟩ (by decide) r).2
  omega

/-- C1: The default-distribution registry resolves a type by a fixed
priority: the exact-type specializations (bool → Bernoulli, string →
string distribution, tuple → tuple generator over recursively resolved
component defaults) take precedence over the primary template's category
dispatch (integral → uniform-integral, floating → uniform-floating,
sequence-like → sequence default with recursively resolved element
distribution); in particular a string — although itself sequence-like,
so the category dispatch would hand it the generic element-by-element
sequence default — resolves to the string distribution and never to that
sequence default. -/
theorem default_distribution_registry_priority :
    (default_distribution_traits Ty.bool = some DistDesc.bernoulli
      ∧ isIntegral Ty.bool = true
      ∧ deduce_distribution Ty.bool = some (DistDesc.uniformInt 0 1)
      ∧ default_distribution_traits Ty.bool ≠ deduce_distribution Ty.bool)
  ∧ (default_distribution_traits Ty.string
        = some (DistDesc.stringDist 0 32 33 126)
      ∧ isSequenceLike Ty.string = true
      ∧ deduce_distribution Ty.string
          = some (DistDesc.seqDist 0 32 (DistDesc.uniformInt 0 127))
      ∧ default_distribution_traits Ty.string ≠ deduce_distribution Ty.string)
  ∧ (∀ comps : List Ty,
      default_distribution_traits (Ty.tup comps)
        = (defaultsList comps).map DistDesc.tupleGen)
  ∧ default_distribution_traits
        (Ty.tup [Ty.bool, Ty.string, Ty.integral (-128) 127])
      = some (DistDesc.tupleGen [DistDesc.bernoulli,
          DistDesc.stringDist 0 32 33 126, DistDesc.uniformInt 0 127])
  ∧ (∀ mn mx : Int,
      default_distribution_traits (Ty.integral mn mx)
          = some (DistDesc.uniformInt 0 mx)
        ∧ default_distribution_traits (Ty.integral mn mx)
          = deduce_distribution (Ty.integral mn mx))
  ∧ (∀ lo hi : Int,
      default_distribution_traits (Ty.floating lo hi)
          = some (DistDesc.uniformReal 0 1)
        ∧ default_distribution_traits (Ty.floating lo hi)
          = deduce_distribution (Ty.floating lo hi))
  ∧ (∀ t : Ty,
      default_distribution_traits (Ty.seq t)
          = (default_distribution_traits t).map
              (fun d => DistDesc.seqDist 0 32 d)
        ∧ default_distribution_traits (Ty.seq t)
          = deduce_distribution (Ty.seq t)) :=
  ⟨⟨rfl, rfl, rfl, fun h => DistDesc.noConfusion (Option.some.inj h)⟩,
   ⟨rfl, rfl, rfl, fun h => DistDesc.noConfusion (Option.some.inj h)⟩,
   fun _ => rfl, rfl,
   fun _ _ => ⟨rfl, rfl⟩, fun _ _ => ⟨rfl, rfl⟩, fun _ => ⟨rfl, rfl⟩⟩

/-- C2 counterexample: for `T = int` (min = -2^31, max = 2^31 - 1) the
registry's default integral distribution has parameters `(0, 2^31 - 1)`:
its lower bound is 0, not the type's minimum, so it is not uniform over
the full representable range of `int`. -/
theorem default_integral_not_full_range :
    default_integral_distribution ⟨-2147483648, 2147483647⟩
        = ⟨0, 2147483647⟩
  ∧ (default_integral_distribution ⟨-2147483648, 2147483647⟩).a
        ≠ -2147483648
  ∧ (⟨0, 2147483647⟩ : uniform_int_distribution)
        ≠ ⟨-2147483648, 2147483647⟩ :=
  ⟨rfl, by decide, by decide⟩

/-- C2 (amended): for every integral type T, the registry's default
integral distribution is the default-constructed
`std::uniform_int_distribution<T>`, uniform over `[0, max(T)]` inclusive
of both endpoints — the full representable range exactly when T is
unsigned — with no parameters supplied; every value it derives from an
engine word lies in `[0, max(T)]`. -/
theorem default_integral_distribution_range :
    (∀ t : integral_type, default_integral_distribution t = ⟨0, t.max⟩)
  ∧ (∀ (t : integral_type) (r : Nat), 0 ≤ t.max →
      0 ≤ (default_integral_distribution t).val r
        ∧ (default_integral_distribution t).val r ≤ t.max)
  ∧ (∀ mn mx : Int,
      default_distribution_traits (Ty.integral mn mx)
        = some (DistDesc.uniformInt 0 mx)) := by
  refine ⟨fun _ => rfl, fun t r h => ?_, fun _ _ => rfl⟩
  exact uniform_int_distribution.val_mem (default_integral_distribution t) h r

/-- C3 (code bug): the registry's default floating-point distribution is
the default-constructed `std::uniform_real_distribution<T>`, whose
parameters are `(0, 1)` — generation over `[0, 1)`, not the full
representable range (for `double`, `[-(2^1024 - 2^971), 2^1024 - 2^971]`)
that the code's own comment (random.hpp lines 489-491) claims. -/
theorem default_floating_point_unit_interval :
    default_floating_point_distribution double_type = ⟨0, 1⟩
  ∧ default_floating_point_distribution double_type
      ≠ ⟨double_type.lowest, double_type.max⟩
  ∧ double_type.lowest < 0
  ∧ 1 < double_type.max
  ∧ (∀ t : floating_type,
      default_distribution_traits (Ty.floating t.lowest t.max)
        = some (DistDesc.uniformReal 0 1)) := by
  refine ⟨rfl, ?_, ?_, ?_, fun _ => rfl⟩
  · intro h
    have h2 := congrArg uniform_real_distribution.a h
    simp only [default_floating_point_distribution, double_type] at h2
    omega
  · show -(2 ^ 1024 - 2 ^ 971 : Int) < 0
    have : (2 ^ 971 : Int) < 2 ^ 1024 := by
      exact pow_lt_pow_right₀ (by norm_num) (by norm_num)
    omega
  · show (1 : Int) < 2 ^ 1024 - 2 ^ 971
    have h1 : (2 ^ 971 : Int) < 2 ^ 1024 := by
      exact pow_lt_pow_right₀ (by norm_num) (by norm_num)
    have h2 : (2 : Int) ≤ 2 ^ 971 := by
      calc (2 : Int) = 2 ^ 1 := (pow_one 2).symm
      _ ≤ 2 ^ 971 := pow_le_pow_right₀ (by norm_num) (by norm_num)
    have h3 : (2 ^ 971 : Int) + 2 ^ 971 ≤ 2 ^ 1024 := by
      have : (2 ^ 971 : Int) + 2 ^ 971 = 2 ^ 972 := by ring
      rw [this]
      exact pow_le_pow_right₀ (by norm_num) (by norm_num)
    omega

/-- C4 counterexample: constructing a `random_iterator_distribution` over
an empty container (size 0) is not rejected: the constructor silently
produces an instance whose index distribution has the degenerate wrapped
range `[0, 2^64 - 1]`. -/
theorem random_iterator_distribution_empty_accepted :
    random_iterator_distribution_ctor 0
        = some ⟨0, ((size_t_modulus - 1 : Nat) : Int)⟩
  ∧ random_iterator_distribution_ctor 0 ≠ none := by
  constructor
  · unfold random_iterator_distribution_ctor
    congr 2
  · unfold random_iterator_distribution_ctor
    exact fun h => Option.noConfusion h

/-- C4 (amended): the `random_iterator_distribution` constructor performs
no emptiness check and never fails; it always produces an instance whose
index distribution has bounds `[0, (size - 1) mod 2^64]` — `[0, size - 1]`
for a non-empty container, and the degenerate wrapped range
`[0, 2^64 - 1]` when the container is empty, so an empty container is
silently accepted rather than rejected. -/
theorem random_iterator_distribution_ctor_unchecked :
    (∀ size : Nat, 0 < size → size < size_t_modulus →
      random_iterator_distribution_ctor size = some ⟨0, (size : Int) - 1⟩)
  ∧ random_iterator_distribution_ctor 0
      = some ⟨0, ((size_t_modulus - 1 : Nat) : Int)⟩ := by
  constructor
  · intro size h1 h2
    unfold random_iterator_distribution_ctor
    congr 2
    have hm : (size + (size_t_modulus - 1)) % size_t_modulus = size - 1 := by
      have step : size + (size_t_modulus - 1) = (size - 1) + 1 * size_t_modulus := by
        unfold size_t_modulus
        unfold size_t_modulus at h2
        omega
      rw [step, Nat.add_mul_mod_self_right]
      exact Nat.mod_eq_of_lt (by omega)
    rw [hm]
    omega
  · unfold random_iterator_distribution_ctor
    congr 2

/-- C5 (code bug at arity 1 and arities above 3): at arity 2 — the one
arity whose `generate` helper builds its result with a braced initializer
list, which C++ evaluates left to right — invoking the tuple generator
draws field 0 from distribution 0 at the current engine word and field 1
from distribution 1 at the following word, in declared field order, and
assembles the two drawn values into a pair whose i-th component is the
value drawn from the i-th distribution, consuming exactly one engine word
per component.  (The arity-3 helper builds its result with a
parenthesized constructor call, whose argument evaluation order C++
leaves unspecified, so the source gives no field-order guarantee there
and none is modelled.) -/
theorem random_tuple_generator_field_order :
    ∀ (d1 d2 : uniform_int_distribution) (e : Engine),
      random_tuple_generator.run ⟨d1, d2⟩ e
        = ((d1.val (e.stream e.pos), d2.val (e.stream (e.pos + 1))),
           ⟨e.stream, e.pos + 2⟩) := by
  intro d1 d2 e
  simp only [random_tuple_generator.run, uniform_int_distribution.draw,
    Prod.mk.injEq]

/-- C6: every string generated by the default string distribution has
length at most 32 (lengths are drawn from `[0, 32]`), and every character
of every generated string lies in `[33, 126]`. -/
theorem random_string_distribution_bounds :
    ∀ e : Engine,
      (random_string_distribution.run e).1.length ≤ 32
      ∧ ∀ c ∈ (random_string_distribution.run e).1, 33 ≤ c ∧ c ≤ 126 := by
  intro e
  show ((random_sequence_distribution.mk ⟨0, 32⟩ ⟨33, 126⟩).run e).1.length ≤ 32
    ∧ ∀ c ∈ ((random_sequence_distribution.mk ⟨0, 32⟩ ⟨33, 126⟩).run e).1,
        33 ≤ c ∧ c ≤ 126
  rw [random_sequence_distribution.run_eq]
  constructor
  · simp only [List.length_map, List.length_range]
    exact default_size_le _
  · intro c hc
    simp only [List.mem_map, List.mem_range] at hc
    obtain ⟨i, _, hval⟩ := hc
    have h := uniform_int_distribution.val_mem ⟨33, 126⟩ (by decide)
      (e.stream (e.pos + 1 + i))
    rw [hval] at h
    exact h

/-- C7: each invocation of a sequence distribution first draws a length
`n` from its size distribution (consuming the engine word at the cursor),
then returns an aggregate of exactly `n` elements filled in generation
order, the element at position `i` drawn from the element distribution at
the `i`-th following engine word — exactly one length draw followed by
one draw per element. -/
theorem random_sequence_distribution_draw_order :
    ∀ (sz g : uniform_int_distribution) (e : Engine),
      random_sequence_distribution.run ⟨sz, g⟩ e
        = ((List.range (sz.val (e.stream e.pos)).toNat).map
             (fun i => g.val (e.stream (e.pos + 1 + i))),
           ⟨e.stream, e.pos + 1 + (sz.val (e.stream e.pos)).toNat⟩) :=
  fun sz g e => random_sequence_distribution.run_eq sz g e

/-- C8: the bulk-fill operation stores, at each position of the
destination range in range order, the value drawn at the corresponding
engine word, consumes exactly `length(destination)` draws, and has no
effect (stores nothing, advances nothing) on an empty range. -/
theorem generate_random_fill :
    (∀ (dest : List Int) (e : Engine) (g : uniform_int_distribution),
      generate_random dest e g
        = ((List.range dest.length).map
             (fun i => g.val (e.stream (e.pos + i))),
           ⟨e.stream, e.pos + dest.length⟩))
  ∧ (∀ (e : Engine) (g : uniform_int_distribution),
      generate_random [] e g = ([], e)) := by
  refine ⟨fun dest e g => ?_, fun _ _ => rfl⟩
  rw [generate_random_eq_drawN, uniform_int_distribution.drawN_eq]

/-- C9: two distributions of the same concrete kind compare equal exactly
when all their construction parameters are equal, and this holds
recursively: given component comparisons that themselves coincide with
parameter equality, a uniform distribution compares by its bounds, a
sequence distribution by its size and element distributions, a tuple
generator by its component distributions pairwise in order, an adapted
distribution by its inner distribution, and a single-value distribution
by its fixed value. -/
theorem distribution_structural_equality (S G : Type)
    (sb : S → S → Bool) (gb : G → G → Bool)
    (hS : ∀ u v, sb u v = true ↔ u = v)
    (hG : ∀ u v, gb u v = true ↔ u = v) :
    (∀ x y : uniform_int_distribution, x.beq y = true ↔ x = y)
  ∧ (∀ x y : random_sequence_distribution S G,
      random_sequence_distribution.equal sb gb x y = true ↔ x = y)
  ∧ (∀ x y : random_tuple_generator S G,
      random_tuple_generator.beq sb gb x y = true ↔ x = y)
  ∧ (∀ x y : adapted_distribution S,
      adapted_distribution.beq sb x y = true ↔ x = y)
  ∧ (∀ x y : single_value_distribution S,
      single_value_distribution.beq sb x y = true ↔ x = y) := by
  refine ⟨uniform_int_distribution.beq_iff, fun x y => ?_, fun x y => ?_,
    fun x y => ?_, fun x y => ?_⟩
  · cases x
    cases y
    simp [random_sequence_distribution.equal,
      random_sequence_distribution.mk.injEq, hS, hG]
  · cases x
    cases y
    simp [random_tuple_generator.beq, random_tuple_generator.mk.injEq, hS, hG]
  · cases x
    cases y
    simp [adapted_distribution.beq, adapted_distribution.mk.injEq, hS]
  · cases x
    cases y
    simp [single_value_distribution.beq, single_value_distribution.mk.injEq, hS]

/-- C9 witness: at the concrete instantiation where both component types
are uniform integer distributions compared by their own `operator==`, the
sequence-distribution equality of the default string distribution with
itself coincides with structural equality. -/
theorem distribution_structural_equality_witness :
    random_sequence_distribution.equal uniform_int_distribution.beq
        uniform_int_distribution.beq ⟨⟨0, 32⟩, ⟨33, 126⟩⟩
        ⟨⟨0, 32⟩, ⟨33, 126⟩⟩ = true
      ↔ (⟨⟨0, 32⟩, ⟨33, 126⟩⟩ :
          random_sequence_distribution uniform_int_distribution
            uniform_int_distribution)
        = ⟨⟨0, 32⟩, ⟨33, 126⟩⟩ :=
  (distribution_structural_equality uniform_int_distribution
    uniform_int_distribution uniform_int_distribution.beq
    uniform_int_distribution.beq uniform_int_distribution.beq_iff
    uniform_int_distribution.beq_iff).2.1 _ _

/-- C10: the default sequence distribution is constructed with the size
distribution `uniform_int_distribution{0, 32}` — uniform over `[0, 32]`,
not Zipf — and the element type's own registry default as element
distribution (recursively resolved, at the registry level); every drawn
length is at most 32, and two default-constructed sequence distributions
for the same sequence type compare equal. -/
theorem default_sequence_distribution_spec :
    (∀ (G : Type) (g : G),
      (default_sequence_distribution g).size
          = (⟨0, 32⟩ : uniform_int_distribution)
        ∧ (default_sequence_distribution g).gen = g)
  ∧ (∀ t : Ty,
      default_distribution_traits (Ty.seq t)
        = (default_distribution_traits t).map
            (fun d => DistDesc.seqDist 0 32 d))
  ∧ (∀ (g : uniform_int_distribution) (e : Engine),
      ((default_sequence_distribution g).run e).1.length ≤ 32)
  ∧ (∀ g : uniform_int_distribution,
      random_sequence_distribution.equal uniform_int_distribution.beq
        uniform_int_distribution.beq (default_sequence_distribution g)
        (default_sequence_distribution g) = true) := by
  refine ⟨fun _ _ => ⟨rfl, rfl⟩, fun _ => rfl, fun g e => ?_, fun g => ?_⟩
  · show ((random_sequence_distribution.mk ⟨0, 32⟩ g).run e).1.length ≤ 32
    rw [random_sequence_distribution.run_eq]
    simp only [List.length_map, List.length_range]
    exact default_size_le _
  · show (uniform_int_distribution.beq ⟨0, 32⟩ ⟨0, 32⟩
        && uniform_int_distribution.beq g g) = true
    rw [Bool.and_eq_true]
    exact ⟨(uniform_int_distribution.beq_iff _ _).mpr rfl,
      (uniform_int_distribution.beq_iff _ _).mpr rfl⟩

end Origin
